import Mathlib

/-!
Verification of the Polaris LLM gateway against its specification.

This file gives a shallow embedding, in Lean 4, of the parts of the
Polaris source that the specification's claims are about:

* `tools/tokenizer/__init__.py` (token counting, length-based fallback),
* `tools/llm/summarizer.py` (`Summarizer.summarize`),
* `tools/docs/context_utils.py` (`build_llm_context`),
* `tools/docs/chunking.py` (`_chunk_text_basic`),
* `tools/embed/text.py` (`embed_text`),
* `tools/docs/attachment_utils.py` (the per-chunk embedding validation in
  `process_attachments_for_vectorization`),
* `tools/database/vector/read.py` (`search_vectors` in-process fallback),
* `tools/database/file/create.py` (`create_file` hash derivation,
  `find_existing_file_by_hash`),
* `tools/database/file/update.py` (`update_file_by_content_hash`),
* `server/api/v1/files.py` (`upload_files`, one file at a time),
* `tools/search/unified_search.py` (`unified_search` and its formatters).

External effects (remote LLM calls, the embedding provider, web search
providers, the PostgREST backend) are modelled as explicit oracle
parameters or as explicit state (a list of database records).  Python
floats are modelled with exact rationals; Python `int()` on a
non-negative value is the floor.  SHA-256 is modelled as an injective
constructor, reflecting the collision-freedom assumption the source
itself relies on for hash-based deduplication.
-/

namespace Polaris

/-! ### Token counting (`tools/tokenizer/__init__.py`)

`token_counter(text, provider, model)` resolves `(provider, model)` to a
tokenizer module and returns `(count, None, None)` on success.  For a
valid `(provider, model)` pair the error component is always `None`:
when the underlying tokenizer itself raises, `token_counter` returns the
length-based estimate `len(text) // 4` with no error.  We therefore model
a tokenizer as a total function `String → ℕ`, and give the source's own
fallback estimator as a concrete instance. -/

/-- The fallback estimate `len(text) // 4` from `token_counter`
(`tools/tokenizer/__init__.py`): used whenever the provider tokenizer
raises, so it is a realizable behaviour of `token_counter` for any valid
`(provider, model)` pair. -/
def fallbackTokenCount (s : String) : ℕ :=
  s.length / 4

/-- An exact fraction, modelling the value of a Python float expression
in the context builder.  The fractions are not normalized (no gcd), so
all operations are plain integer arithmetic; every denominator built
below is positive. -/
structure PyRat where
  num : ℤ
  den : ℤ
deriving DecidableEq, Repr

/-- The fraction `n / 1`. -/
def PyRat.ofNat (n : ℕ) : PyRat :=
  ⟨n, 1⟩

/-- Exact fraction addition. -/
def PyRat.add (a b : PyRat) : PyRat :=
  ⟨a.num * b.den + b.num * a.den, a.den * b.den⟩

/-- Exact fraction subtraction. -/
def PyRat.sub (a b : PyRat) : PyRat :=
  ⟨a.num * b.den - b.num * a.den, a.den * b.den⟩

/-- Exact fraction multiplication. -/
def PyRat.mul (a b : PyRat) : PyRat :=
  ⟨a.num * b.num, a.den * b.den⟩

/-- Exact fraction division (exact when the divisor is non-zero; the
modelled code only divides by positive token counts and weight sums). -/
def PyRat.div (a b : PyRat) : PyRat :=
  ⟨a.num * b.den, a.den * b.num⟩

/-- Comparison `a ≤ b` of exact fractions, sign-correct for any non-zero
denominators (both sides of the cross-multiplication are multiplied by
the square-signed product of denominators). -/
def PyRat.ble (a b : PyRat) : Bool :=
  decide (a.num * b.den * (a.den * b.den) ≤ b.num * a.den * (a.den * b.den))

/-- Python `int(x)` applied to a non-negative float expression:
truncation toward zero, which is the floor on non-negative values. -/
def pyInt (q : PyRat) : ℕ :=
  q.num.toNat / q.den.toNat

/-! ### Summarizer (`tools/llm/summarizer.py`) -/

/-- The result dictionary built by `Summarizer.summarize`: keys
`status`, `message`, `content`, `original_size`, `reduced_size`. -/
structure SummResult where
  status : ℕ
  message : String
  content : String
  original_size : ℕ
  reduced_size : ℕ
deriving DecidableEq, Repr

/-- `MAX_TOKEN_LIMIT` from `tools/llm/summarizer.py`. -/
def MAX_TOKEN_LIMIT : ℕ := 1000000

/-- The summarization loop of `Summarizer.summarize`
(`for attempt in range(max_attempts)`).  The Gemini call of each pass is
the oracle `llm : String → Option String` (`none` models an exception,
handled by the `except` branch with status 500).  `fuel` is the number
of remaining attempts (initially 3), `cur` the current text and
`curSize` its token count.  When the attempts are exhausted the source
returns the best-effort text with status `200`. -/
def summLoop (count : String → ℕ) (llm : String → Option String)
    (target orig : ℕ) : ℕ → String → ℕ → SummResult
  | 0, cur, curSize =>
    ⟨200,
     "Partially summarized context. Reduced from " ++ toString orig ++
       " to " ++ toString curSize ++ " tokens, but didn't reach target of " ++
       toString target ++ ".",
     cur, orig, curSize⟩
  | fuel + 1, cur, _ =>
    match llm cur with
    | none => ⟨500, "Internal server error occurred. Please try again later.", "", orig, 0⟩
    | some s =>
      let cs := count s
      if cs ≤ target then
        ⟨200, "Successfully summarized the context.", s, orig, cs⟩
      else
        summLoop count llm target orig fuel s cs

/-- `Summarizer.summarize(context, target_size, provider, model)` from
`tools/llm/summarizer.py`, for a valid `(provider, model)` pair (so the
token counter never reports an error; see `token_counter`).  `count` is
the token counter and `llm` the per-pass Gemini distillation call.  The
guard `not context or context.strip() == ""` holds exactly when every
character of the context is whitespace (including the empty string). -/
def summarize (count : String → ℕ) (llm : String → Option String)
    (context : String) (target_size : ℕ) : SummResult :=
  if context.toList.all Char.isWhitespace then
    ⟨204, "Provided context is empty; no summarization necessary.", "",
     count context, count context⟩
  else
    let original_size := count context
    if original_size > MAX_TOKEN_LIMIT then
      ⟨400, "Context exceeds the maximum limit of 1,000,000 tokens. Please reduce the input size.",
       "", original_size, 0⟩
    else if original_size ≤ target_size then
      ⟨200, "Context already meets the target size requirement.", context,
       original_size, original_size⟩
    else
      summLoop count llm target_size original_size 3 context original_size

/-! ### Context builder (`tools/docs/context_utils.py`, `build_llm_context`)

Inputs: the three segments, the token budget, priority weights
(`weighting` dict; default `2, 2, 2`) and the `use_summarization` flag.
`count` is `token_counter` for the chosen `(provider, model)` and `summ`
is `summarize_context` for the same pair (an arbitrary oracle here; the
embedded `summarize` above is one instance).  The copy of this function
in `models/deepseek/deepseek_reasoner.py` is the special case with
weights `2, 2, 2` and summarization always on. -/

/-- One weighted fitting step of `build_llm_context` (the pattern is the
same for the query, query-context and local-context segments): if the
segment fits its capacity, return it and pass the leftover on; if not,
summarize it to `int(cap)`, and on summarizer failure character-truncate
to `len · cap / tokens`.  Returns the final segment text and the
leftover capacity added to the next slice. -/
def fitSegment (summ : String → ℕ → SummResult)
    (seg : String) (segTokens : ℕ) (cap : PyRat) (useSumm : Bool) : String × PyRat :=
  if (PyRat.ofNat segTokens).ble cap then
    (seg, cap.sub (PyRat.ofNat segTokens))
  else if useSumm then
    let r := summ seg (pyInt cap)
    if r.status = 200 then (r.content, PyRat.ofNat 0)
    else (seg.take (pyInt ((PyRat.ofNat seg.length).mul (cap.div (PyRat.ofNat segTokens)))), PyRat.ofNat 0)
  else
    (seg.take (pyInt ((PyRat.ofNat seg.length).mul (cap.div (PyRat.ofNat segTokens)))), PyRat.ofNat 0)

/-- `build_llm_context(query_text, query_context, local_context,
max_tokens, provider, model, weighting, use_summarization)` from
`tools/docs/context_utils.py`. -/
def build_llm_context (count : String → ℕ) (summ : String → ℕ → SummResult)
    (query_text query_context local_context : String) (max_tokens : ℕ)
    (pA pB pC : ℕ) (useSumm : Bool) : String × String × String :=
  let qt := count query_text
  let qc := count query_context
  let lc := count local_context
  if qt + qc + lc ≤ max_tokens then
    (query_text, query_context, local_context)
  else if qt > max_tokens ∧ useSumm ∧ (summ query_text max_tokens).status = 200 then
    ((summ query_text max_tokens).content, "", "")
  else if qt > max_tokens ∧ ¬useSumm then
    (query_text.take (pyInt ((PyRat.ofNat query_text.length).mul
      ((PyRat.ofNat max_tokens).div (PyRat.ofNat qt)))), "", "")
  else
    let W : PyRat := ((PyRat.ofNat pA).add (PyRat.ofNat pB)).add (PyRat.ofNat pC)
    let cA : PyRat := ((PyRat.ofNat pA).div W).mul (PyRat.ofNat max_tokens)
    let cB : PyRat := ((PyRat.ofNat pB).div W).mul (PyRat.ofNat max_tokens)
    let cC : PyRat := ((PyRat.ofNat pC).div W).mul (PyRat.ofNat max_tokens)
    let stepA := fitSegment summ query_text qt cA useSumm
    let stepB := fitSegment summ query_context qc (cB.add stepA.2) useSumm
    let stepC := fitSegment summ local_context lc (cC.add stepB.2) useSumm
    (stepA.1, stepB.1, stepC.1)

/-- A summarizer oracle that always fails (status 500); irrelevant to
runs with `use_summarization = False`, where it is never consulted. -/
def failSumm : String → ℕ → SummResult :=
  fun _ _ => ⟨500, "Internal server error occurred. Please try again later.", "", 0, 0⟩

/-! ### Fallback chunker (`tools/docs/chunking.py`, `_chunk_text_basic`)

Text is modelled as `List Char` (Python `len`, slicing and `rfind` are
all in terms of code points).  `_chunk_text_basic` is a `while` loop over
a cursor `start`; each iteration emits the slice `text[start:end]` where
`end` retreats from `min(start + chunk_size, len(text))` to a paragraph
or sentence boundary when one lies late enough in the window, and then
advances `start` by `chunk_size - chunk_overlap`.  The loop is embedded
with a fuel argument (`text.length + 1` suffices: when
`chunk_overlap < chunk_size` the cursor strictly increases each
iteration; for `chunk_size ≤ chunk_overlap` the Python loop does not
terminate, which the fuel bounds). -/

/-- Whether the two-character pattern `c1 c2` occurs in `text` at
position `i`. -/
def matchPairAt (text : List Char) (c1 c2 : Char) (i : ℕ) : Bool :=
  text.get? i == some c1 && text.get? (i + 1) == some c2

/-- Downward scan for Python `str.rfind(c1 + c2, start, stop)`: the
largest candidate position is examined first; `i` is the current
candidate. -/
def rfindPairFrom (text : List Char) (c1 c2 : Char) (start : ℕ) : ℕ → Option ℕ
  | 0 => if start = 0 && matchPairAt text c1 c2 0 then some 0 else none
  | i + 1 =>
    if i + 1 < start then none
    else if matchPairAt text c1 c2 (i + 1) then some (i + 1)
    else rfindPairFrom text c1 c2 start i

/-- Python `text.rfind(c1 + c2, start, stop)`: the largest `i` with
`start ≤ i`, `i + 2 ≤ stop` and the pattern at `i`; `none` models the
return value `-1`. -/
def rfindPair (text : List Char) (c1 c2 : Char) (start stop : ℕ) : Option ℕ :=
  if stop < 2 then none else rfindPairFrom text c1 c2 start (stop - 2)

/-- The sentence-boundary retreat of `_chunk_text_basic`: look for the
most recent `". "` in the window; accept it only when it lies after
`start + chunk_size // 3`. -/
def chunkEndSentence (text : List Char) (chunk_size start end0 : ℕ) : ℕ :=
  match rfindPair text '.' ' ' start end0 with
  | some q => if start + chunk_size / 3 < q then q + 2 else end0
  | none => end0

/-- The boundary retreat of one iteration of `_chunk_text_basic`, given
the provisional end `end0`: retreat to a late-enough paragraph break
(`"\n\n"`), else to a late-enough sentence break (`". "`), when the
window ends before the end of the text. -/
def chunkEndCore (text : List Char) (chunk_size start end0 : ℕ) : ℕ :=
  if end0 < text.length then
    match rfindPair text '\n' '\n' start end0 with
    | some p => if start + chunk_size / 2 < p then p + 2 else chunkEndSentence text chunk_size start end0
    | none => chunkEndSentence text chunk_size start end0
  else end0

/-- The end position chosen by one iteration of `_chunk_text_basic`:
the provisional end is `min(start + chunk_size, len(text))`. -/
def chunkEnd (text : List Char) (chunk_size start : ℕ) : ℕ :=
  chunkEndCore text chunk_size start (min (start + chunk_size) text.length)

/-- The `(start, end)` spans produced by the `while` loop of
`_chunk_text_basic`, with fuel. -/
def chunkSpansAux (text : List Char) (chunk_size chunk_overlap : ℕ) :
    ℕ → ℕ → List (ℕ × ℕ)
  | 0, _ => []
  | fuel + 1, start =>
    if start < text.length then
      (start, chunkEnd text chunk_size start) ::
        chunkSpansAux text chunk_size chunk_overlap fuel (start + (chunk_size - chunk_overlap))
    else []

/-- The spans of `_chunk_text_basic` starting from cursor 0. -/
def chunkSpans (text : List Char) (chunk_size chunk_overlap : ℕ) : List (ℕ × ℕ) :=
  chunkSpansAux text chunk_size chunk_overlap (text.length + 1) 0

/-- `_chunk_text_basic(text, chunk_size, chunk_overlap)` from
`tools/docs/chunking.py`: the chunk for span `(s, e)` is the slice
`text[s:e]`. -/
def chunkTextBasic (text : List Char) (chunk_size chunk_overlap : ℕ) : List (List Char) :=
  (chunkSpans text chunk_size chunk_overlap).map (fun p => (text.drop p.1).take (p.2 - p.1))

/-! ### File records and hash-based deduplication
(`tools/database/file/create.py`, `tools/database/file/update.py`,
`server/api/v1/files.py`)

The PostgREST backend is modelled as an explicit list of file records,
in insertion order: `find_existing_file_by_hash` takes `results[0]` of
the rows matching the hash, which is the first such record in the list.
File bytes are modelled as `String` (a byte string); SHA-256 is modelled
as an injective constructor `sha256Hex`, reflecting the
collision-freedom assumption the deduplication logic relies on. -/

/-- A SHA-256 hex digest, modelled as an injective tag of the hashed
input (`hashlib.sha256(x).hexdigest()`). -/
structure Digest where
  preimage : String
deriving DecidableEq, Repr

/-- `hashlib.sha256(x).hexdigest()`, as an injective function. -/
def sha256Hex (s : String) : Digest :=
  ⟨s⟩

/-- A row of the `files` table, with the fields the upload and
deduplication logic depends on (remaining columns such as the MIME type,
token count and metadata play no role in these paths and are omitted). -/
structure FileRec where
  file_id : ℕ
  filename : String
  content_hash : Digest
  address : String
  content : String
  size : ℕ
deriving DecidableEq, Repr

/-- The database state: rows of the `files` table in insertion order. -/
abbrev FileDB := List FileRec

/-- `find_existing_file_by_hash(content_hash)` from
`tools/database/file/create.py`: `results[0]` of the rows whose
`content_hash` matches, or `None`. -/
def findExistingFileByHash (db : FileDB) (h : Digest) : Option FileRec :=
  db.find? (fun f => f.content_hash == h)

/-- The patch applied by `update_file(file_id, address)`
(`tools/database/file/update.py`): set the address of the rows whose
`file_id` matches. -/
def patchAddress (fid : ℕ) (addr : String) (g : FileRec) : FileRec :=
  if g.file_id = fid then ⟨g.file_id, g.filename, g.content_hash, addr, g.content, g.size⟩
  else g

/-- `update_file_by_content_hash(content_hash, address)` from
`tools/database/file/update.py`: find the first row with the hash,
patch that row's address (`update_file` patches by `file_id`), and
return the updated row; `none` when no row matches. -/
def updateFileByContentHash (db : FileDB) (h : Digest) (addr : String) :
    Option FileRec × FileDB :=
  match db.find? (fun f => f.content_hash == h) with
  | none => (none, db)
  | some f =>
    (some ⟨f.file_id, f.filename, f.content_hash, addr, f.content, f.size⟩,
     db.map (patchAddress f.file_id addr))

/-- The content-hash derivation of `create_file` from
`tools/database/file/create.py`.  `providedHash = none` models both a
`None` and an empty-string `content_hash` argument (`if not
content_hash`).  With no provided hash: hash the `content` string when
it is non-empty, else hash
`f"{address}:{filename}:{size}:{os.urandom(8).hex()}"`, whose random
component is the explicit argument `randHex`. -/
def createFileContentHash (content address filename : String) (size : ℕ)
    (providedHash : Option Digest) (randHex : String) : Digest :=
  match providedHash with
  | some h => h
  | none =>
    if content ≠ "" then sha256Hex content
    else sha256Hex (address ++ ":" ++ filename ++ ":" ++ toString size ++ ":" ++ randHex)

/-- `MAX_FILE_SIZE` from `server/api/v1/files.py` (256 MiB). -/
def MAX_FILE_SIZE : ℕ := 256 * 1024 * 1024

/-- `SUPPORTED_EXTENSIONS` from `server/api/v1/files.py`: the keys of
`Parse.file_type_parsers` (`tools/parse/parser.py`). -/
def SUPPORTED_EXTENSIONS : List String :=
  [".pdf",
   ".doc", ".docx", ".rtf", ".dot", ".dotx", ".hwp", ".hwpx",
   ".png", ".jpg", ".jpeg", ".webp",
   ".aac", ".flac", ".mp3", ".m4a", ".mpeg", ".mpga", ".opus", ".pcm", ".wav",
   ".flv", ".mov", ".mpg", ".mpegps", ".mp4", ".webm", ".wmv", ".3gpp",
   ".txt",
   ".py", ".java", ".js", ".html", ".css", ".c", ".cpp", ".h", ".hpp",
   ".cs", ".php", ".rb", ".go", ".rs", ".sql", ".ts", ".swift", ".kt",
   ".csv", ".tsv", ".json", ".xml", ".yaml", ".yml"]

/-- `is_text_file(file_ext)` from `server/api/v1/files.py`. -/
def isTextFile (ext : String) : Bool :=
  [".txt", ".py", ".java", ".js", ".html", ".css", ".c", ".cpp",
   ".h", ".hpp", ".cs", ".php", ".rb", ".go", ".rs", ".sql",
   ".ts", ".swift", ".kt", ".csv", ".tsv", ".json", ".xml",
   ".yaml", ".yml", ".md", ".rst"].contains ext

/-- Processing of a single file by `upload_files`
(`server/api/v1/files.py`): size check, extension check, SHA-256 of the
raw bytes, duplicate lookup, then reuse / restore / create.  `ext` is
`os.path.splitext(file.filename.lower())[1]` (computed by the Python
standard library), `freshId` the `file_id` the backend would assign to a
newly inserted row, and `storedFilename` the fresh `file-<uuid>.<ext>`
name chosen by `save_file_to_disk`.  UTF-8 decoding of a text file is
modelled as the identity on the byte string.  Returns the `file-id`
reported in the response (`none` when the file is skipped with an
error) and the new database state. -/
def uploadOne (db : FileDB) (bytes filename ext : String)
    (freshId : ℕ) (storedFilename : String) : Option ℕ × FileDB :=
  if MAX_FILE_SIZE < bytes.length then (none, db)
  else if ¬SUPPORTED_EXTENSIONS.contains ext then (none, db)
  else
    match findExistingFileByHash db (sha256Hex bytes) with
    | some f =>
      if f.address ≠ "deleted" then
        match updateFileByContentHash db (sha256Hex bytes) f.address with
        | (some g, db1) => (some g.file_id, db1)
        | (none, db1) => (none, db1)
      else
        match updateFileByContentHash db (sha256Hex bytes) storedFilename with
        | (some g, db1) => (some g.file_id, db1)
        | (none, db1) => (none, db1)
    | none =>
      (some freshId,
       db ++ [⟨freshId, filename, sha256Hex bytes, storedFilename,
         (if isTextFile ext then bytes else ""), bytes.length⟩])

/-- Hash uniqueness: no two rows of the database share a content hash
(the invariant the specification asserts for logical files). -/
def hashUnique (db : FileDB) : Prop :=
  db.Pairwise (fun f g => f.content_hash ≠ g.content_hash)

/-! ### Vector search and the in-process fallback
(`tools/database/vector/read.py`, `search_vectors`)

A thread's stored vectors are modelled as a list in backend listing
order.  The similarity of a stored embedding to the query embedding is
abstracted as a function `simF` (the code computes it with numpy's
`dot/(norm*norm)` in floating point, the backend with pgvector; the
claim compares the two paths for the same vectors and query embedding,
so a single exact value per vector is used for both sides).  Python's
`list.sort(key=..., reverse=True)` is stable; `sortBySimDesc` below is
the corresponding stable descending insertion sort. -/

/-- A row of the `vector_store` table, with the fields the search path
reads. -/
structure VecRec where
  vector_id : ℕ
  content : String
  embedding : List ℚ
deriving DecidableEq, Repr

/-- Insert a scored vector behind every element with a greater-or-equal
score (stable descending insertion). -/
def insertBySimDesc (x : VecRec × ℚ) : List (VecRec × ℚ) → List (VecRec × ℚ)
  | [] => [x]
  | y :: t => if y.2 < x.2 then x :: y :: t else y :: insertBySimDesc x t

/-- Stable descending sort by similarity, modelling
`results_with_scores.sort(key=lambda x: x.get("similarity", 0),
reverse=True)`. -/
def sortBySimDesc (l : List (VecRec × ℚ)) : List (VecRec × ℚ) :=
  l.foldl (fun acc x => insertBySimDesc x acc) []

/-- Modelled from the spec: the backend stored procedure
`search_vectors(query_embedding, namespace, thread_id_param,
similarity_threshold, match_count)` is not part of the repository source
(it lives in the database); per §4.1 and §6 of the specification it
"MUST return cosine similarities ≥ threshold, sorted descending,
truncated to k" over the thread's vectors in the namespace.  Ties are
not constrained by the spec; the same stable descending sort as the
in-process path is used. -/
def searchVectorsRPC (simF : List ℚ → ℚ) (vecs : List VecRec)
    (threshold : ℚ) (k : ℕ) : List (VecRec × ℚ) :=
  (sortBySimDesc ((vecs.filter (fun v => threshold ≤ simF v.embedding)).map
    (fun v => (v, simF v.embedding)))).take k

/-- Modelled from the spec: the backend helper
`get_thread_vectors(thread_id_param, namespace_param, limit_param)` is
also not part of the repository source; per §6 it lists a thread's
vectors in the namespace, limited to `limit_param` rows (backend listing
order). -/
def getThreadVectors (vecs : List VecRec) (lim : ℕ) : List VecRec :=
  vecs.take lim

/-- The in-process fallback ranking of `search_vectors`
(`tools/database/vector/read.py`, first fallback): fetch
`get_thread_vectors` with `limit_param = limit * 3`, keep vectors with a
non-empty embedding whose similarity meets the threshold, attach the
similarity, sort descending (stable), truncate to `limit`. -/
def searchVectorsFallback (simF : List ℚ → ℚ) (vecs : List VecRec)
    (threshold : ℚ) (limit : ℕ) : List (VecRec × ℚ) :=
  let fetched := getThreadVectors vecs (limit * 3)
  let scored := fetched.filterMap (fun v =>
    if v.embedding = [] then none
    else if threshold ≤ simF v.embedding then some (v, simF v.embedding) else none)
  (sortBySimDesc scored).take limit

/-- An exact dot product on rational embeddings, used to instantiate
`simF` concretely (for unit-norm embeddings the cosine similarity is the
dot product). -/
def dotQ : List ℚ → List ℚ → ℚ
  | [], _ => 0
  | _, [] => 0
  | a :: as', b :: bs' => a * b + dotQ as' bs'

/-! ### Embedding a text (`tools/embed/text.py`, `embed_text`)

The Google client call `client.models.embed_content(...)` is external;
its `result.embeddings` value is a Python sequence whose items are, in
practice, floats or `ContentEmbedding` wrapper objects.  An item is
modelled by `PyVal`; the provider outcome by `Option (List PyVal)`
(`none` models an exception from the call, caught by the `except`
branch). -/

/-- A runtime item of the provider's `result.embeddings` sequence. -/
inductive PyVal where
  | pyFloat (q : ℚ)
  | contentEmbedding (values : List ℚ)
deriving DecidableEq, Repr

/-- Whether a sequence is a plain list of floats. -/
def isPlainFloatList (xs : List PyVal) : Bool :=
  xs.all (fun v => match v with | .pyFloat _ => true | .contentEmbedding _ => false)

/-- `embed_text(text, model, dimensions)` from `tools/embed/text.py`.
`clientOk` models whether the module-level client initialization
succeeded; `providerResult` is the outcome of the `embed_content` call.
The source returns `result.embeddings` as-is, except that when
`dimensions` is truthy, positive and smaller than `len(embeddings)` the
prefix `embeddings[:dimensions]` is returned; on any error it returns
`None`. -/
def embed_text (clientOk : Bool) (text : String)
    (providerResult : Option (List PyVal)) (dimensions : Option ℕ) :
    Option (List PyVal) :=
  if ¬clientOk then none
  else if text = "" then none
  else
    match providerResult with
    | none => none
    | some embeddings =>
      match dimensions with
      | some d =>
        if 0 < d ∧ d < embeddings.length then some (embeddings.take d)
        else some embeddings
      | none => some embeddings

/-! ### Vectorization of attachment chunks
(`tools/docs/attachment_utils.py`,
`process_attachments_for_vectorization`, chunk loop; the copy in
`models/deepseek/deepseek_reasoner.py` is identical)

A runtime value of an embedding list entry is modelled by `PyNum`
(`isinstance(val, float)` fails for the integer case, `math.isnan` /
`math.isinf` detect the non-finite floats). -/

/-- A runtime value inside an embedding list. -/
inductive PyNum where
  | num (q : ℚ)
  | nan
  | inf
  | ninf
  | intVal (n : ℤ)
deriving DecidableEq, Repr

/-- The per-value check of the vectorization loop:
`isinstance(val, float) and not math.isnan(val) and not
math.isinf(val)`. -/
def isFiniteFloat : PyNum → Bool
  | .num _ => true
  | _ => false

/-- The embedding validation of the vectorization loop: only
`embedding_list[:10]` is inspected (`# Check first few values`). -/
def validEmbedding (xs : List PyNum) : Bool :=
  (xs.take 10).all isFiniteFloat

/-- The per-chunk decision of the vectorization loop in
`process_attachments_for_vectorization`: skip the chunk when the
embedder returned `None` or an empty list (`if not embedding_list`),
skip when the validation fails, otherwise store the embedding via
`create_vector`.  Returns the embedding stored for the chunk, if any. -/
def vectorForChunk (emb : Option (List PyNum)) : Option (List PyNum) :=
  match emb with
  | none => none
  | some xs =>
    if xs.isEmpty then none
    else if validEmbedding xs then some xs
    else none

/-- The embeddings stored by the vectorization loop for a file's chunk
embeddings, in chunk order. -/
def storedVectors (embs : List (Option (List PyNum))) : List (List PyNum) :=
  embs.filterMap vectorForChunk

/-! ### Unified search (`tools/search/unified_search.py`)

The classifier result of `detect_search_needs` is a dict modelled by
`SearchNeeds` (`none` for an absent or null `web_search` key, `[]` for
absent or empty url lists); `unified_search`'s guard `if not
search_results` is modelled by an `Option SearchNeeds` argument, `none`
being a falsy dict (`detect_search_needs` in
`tools/llm/search_indicator.py` in fact always returns a dict containing
a `tool` key, so this branch is dead in the composed system).  The
external tool calls `web_search_tool._run`, `video_tool._run` and
`web_scrape_tool._run` are oracles; next to the combined text,
`unified_search` also returns the log of the external calls it made, as
verification instrumentation. -/

/-- The normalized classifier result consumed by `unified_search`. -/
structure SearchNeeds where
  tool : List String
  web_search : Option String
  videos : List String
  web_scrap : List String
deriving DecidableEq, Repr

/-- A web search result item, in the Tavily dict shape
(`result.get('title')`, `result.get('url')`, `result.get('content')`);
the Linkup attribute shape carries the same three fields. -/
structure WebItem where
  title : String
  url : String
  content : String
deriving DecidableEq, Repr

/-- The outcome of `web_search_tool._run(query)` as consumed by
`_format_web_search_results`: `none` models a falsy result or a result
without a `results` key; `some items` the `results` array. -/
abbrev WebOutcome := Option (List WebItem)

/-- Numbered rendering of the web result items
(`for i, result in enumerate(..., 1)`). -/
def renderWebItems : ℕ → List WebItem → String
  | _, [] => ""
  | i, r :: t =>
    toString i ++ ". **" ++ r.title ++ "**\n" ++
      "   URL: " ++ r.url ++ "\n" ++
      "   " ++ r.content ++ "\n\n" ++ renderWebItems (i + 1) t

/-- `_format_web_search_results(results)` from
`tools/search/unified_search.py`. -/
def formatWebSearchResults (r : WebOutcome) : String :=
  "### WEB SEARCH RESULTS\n\n" ++
    match r with
    | none => "No results found.\n\n"
    | some [] => "No results found.\n\n"
    | some items => renderWebItems 1 items

/-- The outcome of `video_tool._run(url)` as consumed by
`_format_video_results`.  The transcript is kept as the raw string the
formatter appends (the `json.loads` branch that re-parses a JSON
transcript list is external JSON machinery and is not modelled). -/
structure VideoOutcome where
  success : Bool
  video_id : String
  transcript : Option String
deriving DecidableEq, Repr

/-- `_format_video_results(results)` from
`tools/search/unified_search.py`. -/
def formatVideoResults (r : VideoOutcome) : String :=
  "### VIDEO TRANSCRIPT\n\n" ++
    (if ¬r.success then "Could not retrieve video transcript.\n\n"
     else
       "Video ID: " ++ r.video_id ++ "\n\n" ++
         (match r.transcript with
          | some t => if t ≠ "" then t else "No transcript available."
          | none => "No transcript available.") ++ "\n\n")

/-- A scraped document (`item.get("markdown", item.get("html", ...))`
already selected). -/
structure ScrapeDoc where
  content : String
deriving DecidableEq, Repr

/-- The outcome of `web_scrape_tool._run(url)` as consumed by
`_format_web_scrape_results`. -/
structure ScrapeOutcome where
  success : Bool
  url : String
  data : List ScrapeDoc
deriving DecidableEq, Repr

/-- `_format_web_scrape_results(results)` from
`tools/search/unified_search.py`, including the 10,000-character
truncation. -/
def formatWebScrapeResults (r : ScrapeOutcome) : String :=
  "### WEB CONTENT\n\n" ++
    (if ¬r.success then "Could not retrieve web content.\n\n"
     else
       "Source: " ++ r.url ++ "\n\n" ++
         (match r.data with
          | [] => "No content available."
          | docs =>
            String.join (docs.map (fun d =>
              (if 10000 < d.content.length then
                d.content.take 10000 ++ "... [content truncated]"
               else d.content) ++ "\n\n"))))

/-- An external tool call made by `unified_search` (verification
instrumentation: the log of `_run` invocations, in order). -/
inductive SearchCall where
  | web (q : String)
  | video (u : String)
  | scrap (u : String)
deriving DecidableEq, Repr

/-- Python truthiness of `search_results.get("web_search")`. -/
def webSearchTruthy (needs : SearchNeeds) : Bool :=
  match needs.web_search with
  | some s => s ≠ ""
  | none => false

/-- Python `search_results.get("web_search", query)`: the stored value
when the key is present, else the fallback. -/
def webSearchOrElse (needs : SearchNeeds) (query : String) : String :=
  match needs.web_search with
  | some s => s
  | none => query

/-- The running state of `unified_search`: the accumulated
`combined_results` text, the log of external `_run` calls made so far
(verification instrumentation), and the `performed_search` flag. -/
structure SearchState where
  combined : String
  calls : List SearchCall
  performed : Bool
deriving DecidableEq, Repr

/-- The initial state: `combined_results = f"Search results for: {query}"`
plus a blank line, no search performed. -/
def searchInit (query : String) : SearchState :=
  ⟨"Search results for: " ++ query ++ "\n\n", [], false⟩

/-- `if search_results.get("web_search"): ...` — the direct web-search
branch of `unified_search`. -/
def searchStepDirectWeb (webRun : String → WebOutcome) (needs : SearchNeeds)
    (query : String) (st : SearchState) : SearchState :=
  if webSearchTruthy needs then
    let q1 := webSearchOrElse needs query
    ⟨st.combined ++ formatWebSearchResults (webRun q1),
     st.calls ++ [SearchCall.web q1], true⟩
  else st

/-- `if "web_search" in tools_to_use and not performed_search: ...` —
the tools-list web-search branch. -/
def searchStepToolWeb (webRun : String → WebOutcome) (needs : SearchNeeds)
    (query : String) (st : SearchState) : SearchState :=
  if needs.tool.contains "web_search" && !st.performed then
    let q2 := webSearchOrElse needs query
    ⟨st.combined ++ formatWebSearchResults (webRun q2),
     st.calls ++ [SearchCall.web q2], true⟩
  else st

/-- `if "video" in tools_to_use or search_results.get("videos"): ...` —
the video-transcript branch (the urls loop runs, and the flag is set,
only when the url list is non-empty). -/
def searchStepVideo (videoRun : String → VideoOutcome) (needs : SearchNeeds)
    (st : SearchState) : SearchState :=
  if needs.tool.contains "video" || !needs.videos.isEmpty then
    if !needs.videos.isEmpty then
      ⟨st.combined ++ String.join (needs.videos.map (fun u => formatVideoResults (videoRun u))),
       st.calls ++ needs.videos.map SearchCall.video, true⟩
    else st
  else st

/-- `if "web_scrap" in tools_to_use or search_results.get("web_scrap"):
...` — the page-scrape branch. -/
def searchStepScrape (scrapeRun : String → ScrapeOutcome) (needs : SearchNeeds)
    (st : SearchState) : SearchState :=
  if needs.tool.contains "web_scrap" || !needs.web_scrap.isEmpty then
    if !needs.web_scrap.isEmpty then
      ⟨st.combined ++ String.join (needs.web_scrap.map (fun u => formatWebScrapeResults (scrapeRun u))),
       st.calls ++ needs.web_scrap.map SearchCall.scrap, true⟩
    else st
  else st

/-- `unified_search(query)` from `tools/search/unified_search.py`,
parameterized by the classifier result (`detect_search_needs(query)`)
and by the three external tools.  Returns the combined text block and
the log of external calls. -/
def unified_search (webRun : String → WebOutcome) (videoRun : String → VideoOutcome)
    (scrapeRun : String → ScrapeOutcome) (needs? : Option SearchNeeds)
    (query : String) : String × List SearchCall :=
  match needs? with
  | none => ("No search tools were determined to be relevant for this query.", [])
  | some needs =>
    let st := searchStepScrape scrapeRun needs
      (searchStepVideo videoRun needs
        (searchStepToolWeb webRun needs query
          (searchStepDirectWeb webRun needs query (searchInit query))))
    if !st.performed && query ≠ "" then
      (st.combined ++ formatWebSearchResults (webRun query), st.calls ++ [SearchCall.web query])
    else (st.combined, st.calls)

/-! ## Theorems -/

set_option maxRecDepth 200000 in
/-- Claim C1 (code bug): the specification's budget invariant
`count(query) + count(query_context) + count(local_context) ≤ max_tokens`
on exit of `build_llm_context` — which the function's own docstring also
promises ("ensuring it fits within token limits") — does not hold.  With
the token counter in its length-estimate behaviour (`len // 4`, the
value `token_counter` itself returns when the provider tokenizer
raises), weights `1, 1, 1`, summarization disabled, a 20-character
query, a 31-character query context and a 27-character local context
against a budget of `max_tokens = 17 > 0`, the proportional character
truncation overshoots the fractional capacities `19/3` and `17/3`, and
the returned strings count `5 + 7 + 6 = 18 > 17` tokens. -/
theorem build_llm_context_budget_exceeded :
    17 <
      (fun o => fallbackTokenCount o.1 + fallbackTokenCount o.2.1 + fallbackTokenCount o.2.2)
        (build_llm_context fallbackTokenCount failSumm
          (String.mk (List.replicate 20 'a')) (String.mk (List.replicate 31 'b'))
          (String.mk (List.replicate 27 'c')) 17 1 1 1 false) := by
  decide

set_option maxRecDepth 200000 in
/-- Claim C6 (counterexample): running `build_llm_context` a second time
on its own output, with the same budget, token counter and weights, does
not always return the same three strings.  On the input of
`build_llm_context_budget_exceeded` the first run returns strings of
20, 28 and 25 characters (18 estimated tokens, over the budget of 17),
and the second run truncates them further to 20, 25 and 23 characters. -/
theorem build_llm_context_not_idempotent :
    (let o := build_llm_context fallbackTokenCount failSumm
        (String.mk (List.replicate 20 'a')) (String.mk (List.replicate 31 'b'))
        (String.mk (List.replicate 27 'c')) 17 1 1 1 false
     build_llm_context fallbackTokenCount failSumm o.1 o.2.1 o.2.2 17 1 1 1 false ≠ o) := by
  decide

/-- Claim C6 (amended): `build_llm_context` returns its input unchanged
whenever the input's token counts already fit the budget; consequently a
second run on the first run's output returns the same three strings and
counts whenever that output meets the budget (which, by C1, it can fail
to do). -/
theorem build_llm_context_idempotent_of_fits
    (count : String → ℕ) (summ : String → ℕ → SummResult)
    (q b c : String) (max_tokens pA pB pC : ℕ) (useSumm : Bool)
    (h : count (build_llm_context count summ q b c max_tokens pA pB pC useSumm).1 +
         count (build_llm_context count summ q b c max_tokens pA pB pC useSumm).2.1 +
         count (build_llm_context count summ q b c max_tokens pA pB pC useSumm).2.2 ≤ max_tokens) :
    build_llm_context count summ
        (build_llm_context count summ q b c max_tokens pA pB pC useSumm).1
        (build_llm_context count summ q b c max_tokens pA pB pC useSumm).2.1
        (build_llm_context count summ q b c max_tokens pA pB pC useSumm).2.2
        max_tokens pA pB pC useSumm
      = build_llm_context count summ q b c max_tokens pA pB pC useSumm := by
  generalize hgen : build_llm_context count summ q b c max_tokens pA pB pC useSumm = o at h ⊢
  unfold build_llm_context
  rw [if_pos h]

/-- Witness for `build_llm_context_idempotent_of_fits` at a concrete
input whose first-run output fits the budget. -/
theorem build_llm_context_idempotent_of_fits_witness :
    build_llm_context fallbackTokenCount failSumm
        (build_llm_context fallbackTokenCount failSumm "ping" "" "" 64000 2 2 2 true).1
        (build_llm_context fallbackTokenCount failSumm "ping" "" "" 64000 2 2 2 true).2.1
        (build_llm_context fallbackTokenCount failSumm "ping" "" "" 64000 2 2 2 true).2.2
        64000 2 2 2 true
      = build_llm_context fallbackTokenCount failSumm "ping" "" "" 64000 2 2 2 true :=
  build_llm_context_idempotent_of_fits fallbackTokenCount failSumm
    "ping" "" "" 64000 2 2 2 true (by decide)

/-- Claim C4 (counterexample): when the three summarization passes leave
the text over the target, `Summarizer.summarize` returns the best-effort
text and the actual reduced size, but its status is `200` — the same
status the success path returns — so the "partial" outcome is not
distinct from success in the status field.  Concretely, with the token
counter in its length-estimate behaviour and a distillation call that
returns its input unchanged (a realizable LLM behaviour), an
8-character context (2 estimated tokens) against target 1 yields status
`200` with `reduced_size = 2 > 1`; a distillation call that returns a
1-character text yields the genuine success, also with status `200`. -/
theorem summarize_partial_same_status_as_success :
    (summarize fallbackTokenCount (fun s => some s) "abcdefgh" 1).status = 200 ∧
    (summarize fallbackTokenCount (fun s => some s) "abcdefgh" 1).content = "abcdefgh" ∧
    (summarize fallbackTokenCount (fun s => some s) "abcdefgh" 1).reduced_size = 2 ∧
    (summarize fallbackTokenCount (fun _ => some "a") "abcdefgh" 1).status = 200 := by
  decide

/-- Helper: a summarization pass whose output is still over the target
continues the loop with the pass's output. -/
theorem summLoop_over_step (count : String → ℕ) (llm : String → Option String)
    (target orig fuel : ℕ) (cur : String) (curSize : ℕ) (s : String)
    (h : llm cur = some s) (ho : target < count s) :
    summLoop count llm target orig (fuel + 1) cur curSize =
      summLoop count llm target orig fuel s (count s) := by
  conv_lhs => rw [summLoop]
  rw [h]
  simp [Nat.not_le.mpr ho]

/-- Claim C4 (amended): for every context over the target (with
`original_size ≤ 1,000,000`), if after the 3 summarization passes the
text is still over the target, `summarize` returns the best-effort
compressed text (the third pass's output) and the actual reduced size,
with status `200` — the same numeric status as the success path —
distinguished from success only by the message. -/
theorem summarize_partial_after_three_passes
    (count : String → ℕ) (llm : String → Option String) (ctx : String) (target : ℕ)
    (s1 s2 s3 : String)
    (hws : ctx.toList.all Char.isWhitespace = false)
    (hmax : count ctx ≤ MAX_TOKEN_LIMIT)
    (hover : target < count ctx)
    (h1 : llm ctx = some s1) (h1o : target < count s1)
    (h2 : llm s1 = some s2) (h2o : target < count s2)
    (h3 : llm s2 = some s3) (h3o : target < count s3) :
    (summarize count llm ctx target).status = 200 ∧
    (summarize count llm ctx target).content = s3 ∧
    (summarize count llm ctx target).reduced_size = count s3 ∧
    (summarize count llm ctx target).original_size = count ctx := by
  have hloop : summLoop count llm target (count ctx) 3 ctx (count ctx) =
      summLoop count llm target (count ctx) 0 s3 (count s3) := by
    rw [show (3 : ℕ) = 2 + 1 from rfl,
        summLoop_over_step count llm target (count ctx) 2 ctx (count ctx) s1 h1 h1o,
        show (2 : ℕ) = 1 + 1 from rfl,
        summLoop_over_step count llm target (count ctx) 1 s1 (count s1) s2 h2 h2o,
        show (1 : ℕ) = 0 + 1 from rfl,
        summLoop_over_step count llm target (count ctx) 0 s2 (count s2) s3 h3 h3o]
  have hgoal : summarize count llm ctx target =
      summLoop count llm target (count ctx) 0 s3 (count s3) := by
    unfold summarize
    simp only [hws, Bool.false_eq_true, if_false, gt_iff_lt, Nat.not_lt.mpr hmax,
      Nat.not_le.mpr hover, ite_false]
    exact hloop
  rw [hgoal]
  exact ⟨rfl, rfl, rfl, rfl⟩

/-- Helper: a successful downward scan returns a position between
`start` and the scan origin. -/
theorem rfindPairFrom_le (text : List Char) (c1 c2 : Char) (start : ℕ) :
    ∀ i p, rfindPairFrom text c1 c2 start i = some p → start ≤ p ∧ p ≤ i := by
  intro i
  induction i with
  | zero =>
    intro p hp
    unfold rfindPairFrom at hp
    split at hp
    · rename_i hcond
      cases hp
      simp only [Bool.and_eq_true, decide_eq_true_eq] at hcond
      exact ⟨Nat.le_of_eq hcond.1, Nat.le_refl 0⟩
    · cases hp
  | succ n ih =>
    intro p hp
    unfold rfindPairFrom at hp
    split at hp
    · cases hp
    · split at hp
      · cases hp
        rename_i hlt _
        exact ⟨Nat.le_of_not_lt hlt, Nat.le_refl _⟩
      · have := ih p hp
        exact ⟨this.1, Nat.le_succ_of_le this.2⟩

/-- Helper: a successful `rfind` of a two-character pattern lies in the
requested window: `start ≤ p` and `p + 2 ≤ stop`. -/
theorem rfindPair_mem_window (text : List Char) (c1 c2 : Char) (start stop p : ℕ)
    (hp : rfindPair text c1 c2 start stop = some p) :
    start ≤ p ∧ p + 2 ≤ stop := by
  unfold rfindPair at hp
  split at hp
  · cases hp
  · rename_i hstop
    have h2 : 2 ≤ stop := Nat.le_of_not_lt hstop
    have := rfindPairFrom_le text c1 c2 start (stop - 2) p hp
    refine ⟨this.1, ?_⟩
    have := Nat.add_le_add_right this.2 2
    omega

/-- Helper: bounds for the sentence-boundary retreat: the chosen end
stays strictly after `start` and within `end0`. -/
theorem chunkEndSentence_bounds (text : List Char) (chunk_size start end0 : ℕ)
    (h0 : start < end0) :
    start < chunkEndSentence text chunk_size start end0 ∧
      chunkEndSentence text chunk_size start end0 ≤ end0 := by
  unfold chunkEndSentence
  split
  · rename_i q hq
    have hw := rfindPair_mem_window text '.' ' ' start end0 q hq
    split
    · rename_i hlate
      constructor
      · omega
      · exact hw.2
    · exact ⟨h0, Nat.le_refl _⟩
  · exact ⟨h0, Nat.le_refl _⟩

/-- Helper: bounds for the boundary retreat, for any provisional end
inside the window. -/
theorem chunkEndCore_bounds (text : List Char) (chunk_size start end0 : ℕ)
    (h0 : start < end0) (hN : end0 ≤ text.length) (hW : end0 ≤ start + chunk_size) :
    start < chunkEndCore text chunk_size start end0 ∧
      chunkEndCore text chunk_size start end0 ≤ text.length ∧
      chunkEndCore text chunk_size start end0 ≤ start + chunk_size := by
  unfold chunkEndCore
  split
  · split
    · rename_i p hp
      have hw := rfindPair_mem_window text '\n' '\n' start end0 p hp
      split
      · omega
      · have hs := chunkEndSentence_bounds text chunk_size start end0 h0
        omega
    · have hs := chunkEndSentence_bounds text chunk_size start end0 h0
      omega
  · omega

/-- Helper: bounds for the end position of one chunk: strictly after
`start`, within the text, and within the window `start + chunk_size`. -/
theorem chunkEnd_bounds (text : List Char) (chunk_size start : ℕ)
    (hstart : start < text.length) (hsz : 0 < chunk_size) :
    start < chunkEnd text chunk_size start ∧
      chunkEnd text chunk_size start ≤ text.length ∧
      chunkEnd text chunk_size start ≤ start + chunk_size := by
  unfold chunkEnd
  exact chunkEndCore_bounds text chunk_size start _
    (Nat.lt_min.mpr ⟨Nat.lt_add_of_pos_right hsz, hstart⟩)
    (Nat.min_le_right _ _) (Nat.min_le_left _ _)

/-- Helper: every span produced by the chunking loop starts inside the
text, is non-degenerate, ends within the text and has width at most
`chunk_size`. -/
theorem chunkSpansAux_mem_bounds (text : List Char) (chunk_size chunk_overlap : ℕ)
    (hsz : 0 < chunk_size) :
    ∀ fuel start p, p ∈ chunkSpansAux text chunk_size chunk_overlap fuel start →
      p.1 < text.length ∧ p.1 < p.2 ∧ p.2 ≤ text.length ∧ p.2 ≤ p.1 + chunk_size := by
  intro fuel
  induction fuel with
  | zero => intro start p hp; cases hp
  | succ n ih =>
    intro start p hp
    unfold chunkSpansAux at hp
    split at hp
    · rename_i hstart
      rcases List.mem_cons.mp hp with h | h
      · subst h
        have := chunkEnd_bounds text chunk_size start hstart hsz
        exact ⟨hstart, this.1, this.2.1, this.2.2⟩
      · exact ih _ p h
    · cases hp

/-- Helper: the first span produced from cursor `start`, when any, has
first component `start`. -/
theorem chunkSpansAux_head_start (text : List Char) (chunk_size chunk_overlap fuel start : ℕ) :
    ∀ q ∈ (chunkSpansAux text chunk_size chunk_overlap fuel start).head?, q.1 = start := by
  intro q hq
  cases fuel with
  | zero => cases hq
  | succ n =>
    unfold chunkSpansAux at hq
    split at hq
    · simp only [List.head?_cons, Option.mem_def, Option.some.injEq] at hq
      subst hq
      rfl
    · cases hq

/-- Helper: consecutive spans are strictly ordered, advance by exactly
`chunk_size - chunk_overlap`, and the earlier span's end exceeds the
next start by at most `chunk_overlap` characters. -/
theorem chunkSpansAux_chain (text : List Char) (chunk_size chunk_overlap : ℕ)
    (hov : chunk_overlap < chunk_size) :
    ∀ fuel start, (chunkSpansAux text chunk_size chunk_overlap fuel start).Chain'
      (fun p q => p.1 < q.1 ∧ q.1 = p.1 + (chunk_size - chunk_overlap) ∧
        p.2 ≤ q.1 + chunk_overlap) := by
  intro fuel
  induction fuel with
  | zero => intro start; exact List.chain'_nil
  | succ n ih =>
    intro start
    unfold chunkSpansAux
    split
    · rename_i hstart
      refine List.chain'_cons'.mpr ⟨?_, ih _⟩
      intro q hq
      have hq1 := chunkSpansAux_head_start text chunk_size chunk_overlap n
        (start + (chunk_size - chunk_overlap)) q hq
      have hend := chunkEnd_bounds text chunk_size start hstart
        (Nat.lt_of_le_of_lt (Nat.zero_le _) hov)
      refine ⟨?_, ?_, ?_⟩ <;> omega
    · exact List.chain'_nil

/-- Claim C5 (counterexample): the chunks of the fallback chunker do not
always cover the input.  For the 12-character text `"aaaaaa\n\nbbcc"`
with `chunk_size = 10 > chunk_overlap = 0`, the first window retreats to
the paragraph break (span `[0, 8)`), but the next window still starts at
`0 + 10 - 0 = 10`, so the characters `"bb"` at positions 8 and 9 appear
in no chunk: the chunks are `["aaaaaa\n\n", "cc"]` and their
concatenation (with zero overlap, concatenation minus overlaps is plain
concatenation) is not the input. -/
theorem chunk_text_basic_cover_gap :
    chunkTextBasic ("aaaaaa\n\nbbcc".toList) 10 0 =
        ["aaaaaa\n\n".toList, "cc".toList] ∧
      (chunkTextBasic ("aaaaaa\n\nbbcc".toList) 10 0).flatten ≠ "aaaaaa\n\nbbcc".toList := by
  decide

/-- Claim C5 (amended): for every input and every
`chunk_size > chunk_overlap ≥ 0`, the fallback chunker's chunks are
non-empty, of length at most `chunk_size`, and ordered: consecutive
window starts advance by exactly `chunk_size - chunk_overlap`, and a
span's end exceeds the next span's start by at most `chunk_overlap`
characters (so consecutive chunks overlap by at most `chunk_overlap`).
Coverage of the whole input does not hold in general (see the
counterexample): characters between a boundary-shortened chunk's end and
the next window's start are skipped. -/
theorem chunk_text_basic_invariants (text : List Char) (chunk_size chunk_overlap : ℕ)
    (hov : chunk_overlap < chunk_size) :
    (∀ c ∈ chunkTextBasic text chunk_size chunk_overlap, c ≠ [] ∧ c.length ≤ chunk_size) ∧
      (chunkSpans text chunk_size chunk_overlap).Chain'
        (fun p q => p.1 < q.1 ∧ q.1 = p.1 + (chunk_size - chunk_overlap) ∧
          p.2 ≤ q.1 + chunk_overlap) := by
  have hsz : 0 < chunk_size := Nat.lt_of_le_of_lt (Nat.zero_le _) hov
  constructor
  · intro c hc
    obtain ⟨p, hp, rfl⟩ := List.mem_map.mp hc
    have hb := chunkSpansAux_mem_bounds text chunk_size chunk_overlap hsz _ _ p hp
    have hlen : ((text.drop p.1).take (p.2 - p.1)).length = p.2 - p.1 := by
      rw [List.length_take, List.length_drop]
      omega
    constructor
    · intro hnil
      rw [hnil] at hlen
      simp at hlen
      omega
    · omega
  · exact chunkSpansAux_chain text chunk_size chunk_overlap hov _ _

/-- Witness for `chunk_text_basic_invariants` at a concrete input. -/
theorem chunk_text_basic_invariants_witness :
    (∀ c ∈ chunkTextBasic ("hello world. bye".toList) 5 1, c ≠ [] ∧ c.length ≤ 5) ∧
      (chunkSpans ("hello world. bye".toList) 5 1).Chain'
        (fun p q => p.1 < q.1 ∧ q.1 = p.1 + (5 - 1) ∧ p.2 ≤ q.1 + 1) :=
  chunk_text_basic_invariants ("hello world. bye".toList) 5 1 (by decide)

/-- Claim C7 (counterexample): `embed_text` does not normalize wrapper
objects into a plain list of floats: when the provider call returns a
sequence holding a `ContentEmbedding`-style wrapper (the shape the
Gemini client actually returns), `embed_text` returns that sequence
unchanged, and it is not a plain list of floats.  (The repository's
converter `safely_convert_embedding_to_list` in
`tools/docs/embedding_utils.py` would normalize it, but `embed_text`
never calls it.) -/
theorem embed_text_returns_wrapper_unconverted :
    embed_text true "hello" (some [PyVal.contentEmbedding [1, 2, 3]]) none =
        some [PyVal.contentEmbedding [1, 2, 3]] ∧
      isPlainFloatList [PyVal.contentEmbedding [1, 2, 3]] = false := by
  decide

/-- Claim C7 (amended): `embed_text` passes the provider's embeddings
value through unchanged — performing no normalization — except that when
a `dimensions` argument `d` with `0 < d <` the length of the returned
sequence is supplied, exactly the first `d` items are returned; on a
provider error (or empty text, or a failed client initialization) it
returns `None`. -/
theorem embed_text_passthrough
    (clientOk : Bool) (text : String) (xs : List PyVal) (d : ℕ)
    (hc : clientOk = true) (ht : text ≠ "") (hd : 0 < d) (hlen : d < xs.length) :
    embed_text clientOk text (some xs) (some d) = some (xs.take d) ∧
      embed_text clientOk text (some xs) none = some xs ∧
      embed_text clientOk text none (some d) = none := by
  subst hc
  unfold embed_text
  simp [ht, hd, hlen]

/-- Witness for `embed_text_passthrough`. -/
theorem embed_text_passthrough_witness :
    embed_text true "hi" (some [PyVal.pyFloat 1, PyVal.pyFloat 2]) (some 1) =
        some ([PyVal.pyFloat 1, PyVal.pyFloat 2].take 1) ∧
      embed_text true "hi" (some [PyVal.pyFloat 1, PyVal.pyFloat 2]) none =
        some [PyVal.pyFloat 1, PyVal.pyFloat 2] ∧
      embed_text true "hi" none (some 1) = none :=
  embed_text_passthrough true "hi" [PyVal.pyFloat 1, PyVal.pyFloat 2] 1
    rfl (by decide) (by decide) (by decide)

/-- Claim C8 (counterexample): the vectorization loop checks only the
first 10 values of an embedding, so a chunk whose embedding contains a
NaN at index 10 still gets its vector created: the pipeline can store a
vector with a non-finite embedding value. -/
theorem vectorization_stores_nan_embedding :
    PyNum.nan ∈ List.replicate 10 (PyNum.num 0) ++ [PyNum.nan] ∧
      storedVectors [some (List.replicate 10 (PyNum.num 0) ++ [PyNum.nan])] =
        [List.replicate 10 (PyNum.num 0) ++ [PyNum.nan]] := by
  decide

/-- Claim C8 (amended): every vector stored by the vectorization loop is
non-empty and has only finite float values among its first 10
components; in particular, for embeddings of length at most 10 the
original claim holds (all stored values finite). -/
theorem stored_vectors_first_ten_finite
    (embs : List (Option (List PyNum))) (v : List PyNum)
    (hv : v ∈ storedVectors embs) :
    v ≠ [] ∧ (v.take 10).all isFiniteFloat = true ∧
      (v.length ≤ 10 → v.all isFiniteFloat = true) := by
  obtain ⟨o, _, ho⟩ := List.mem_filterMap.mp hv
  unfold vectorForChunk at ho
  cases o with
  | none => cases ho
  | some xs =>
    simp only at ho
    split at ho
    · cases ho
    · split at ho
      · rename_i hemp hvalid
        cases ho
        refine ⟨?_, hvalid, ?_⟩
        · intro hnil
          exact hemp (by simp [hnil])
        · intro hle
          have htake : v.take 10 = v := List.take_of_length_le hle
          rw [← htake]
          exact hvalid
      · cases ho

/-- Witness for `stored_vectors_first_ten_finite`. -/
theorem stored_vectors_first_ten_finite_witness :
    [PyNum.num 1] ≠ [] ∧ (([PyNum.num 1]).take 10).all isFiniteFloat = true ∧
      (([PyNum.num 1]).length ≤ 10 → ([PyNum.num 1]).all isFiniteFloat = true) :=
  stored_vectors_first_ten_finite [some [PyNum.num 1], none] [PyNum.num 1] (by decide)

/-- Helper: on a list of vectors that all carry a non-empty embedding,
the fallback's scoring pass (`filterMap`) agrees with
filter-then-attach-similarity. -/
theorem scored_filterMap_eq_map_filter (simF : List ℚ → ℚ) (threshold : ℚ) :
    ∀ l : List VecRec, (∀ v ∈ l, v.embedding ≠ []) →
      (l.filterMap (fun v =>
        if v.embedding = [] then none
        else if threshold ≤ simF v.embedding then some (v, simF v.embedding) else none)) =
      ((l.filter (fun v => threshold ≤ simF v.embedding)).map
        (fun v => (v, simF v.embedding))) := by
  intro l
  induction l with
  | nil => intro _; rfl
  | cons a t ih =>
    intro hl
    have ha : a.embedding ≠ [] := hl a (List.mem_cons_self a t)
    have ht : ∀ v ∈ t, v.embedding ≠ [] := fun v hv => hl v (List.mem_cons_of_mem a hv)
    simp only [List.filterMap_cons, List.filter_cons]
    rw [if_neg ha]
    by_cases hth : threshold ≤ simF a.embedding
    · simp [hth, ih ht]
    · simp [hth, ih ht]

/-- Claim C3 (counterexample): the in-process fallback is not
observationally identical to the backend RPC.  The fallback fetches only
`limit * 3` thread vectors; with `k = 1` and four stored vectors whose
similarities to the query are `1/10, 1/5, 3/10, 9/10` in listing order,
the RPC returns the best vector (similarity `9/10`), while the fallback
fetches only the first three and returns the vector with similarity
`3/10` — a different vector, not a float-tolerance discrepancy.  (The
similarity of a stored vector to the fixed query embedding is supplied
as its first coordinate; all similarities meet the threshold `0`.) -/
theorem search_fallback_misses_best_vector :
    (let vs : List VecRec :=
      [⟨1, "a", [⟨1, 10, by decide, by decide⟩]⟩,
       ⟨2, "b", [⟨1, 5, by decide, by decide⟩]⟩,
       ⟨3, "c", [⟨3, 10, by decide, by decide⟩]⟩,
       ⟨4, "d", [⟨9, 10, by decide, by decide⟩]⟩]
     searchVectorsFallback (fun e => e.headD 0) vs 0 1 =
        [(⟨3, "c", [⟨3, 10, by decide, by decide⟩]⟩, ⟨3, 10, by decide, by decide⟩)] ∧
      searchVectorsRPC (fun e => e.headD 0) vs 0 1 =
        [(⟨4, "d", [⟨9, 10, by decide, by decide⟩]⟩, ⟨9, 10, by decide, by decide⟩)] ∧
      searchVectorsFallback (fun e => e.headD 0) vs 0 1 ≠
        searchVectorsRPC (fun e => e.headD 0) vs 0 1) := by
  decide

/-- Claim C3 (amended): whenever the thread holds at most `3 · k`
vectors in the namespace (so the fallback's `limit * 3` fetch covers all
of them) and every stored vector has a non-empty embedding, the
in-process fallback returns exactly the vectors, similarities and order
of the (spec-modelled) backend RPC. -/
theorem search_fallback_eq_rpc_of_all_fetched
    (simF : List ℚ → ℚ) (vecs : List VecRec) (threshold : ℚ) (k : ℕ)
    (hlen : vecs.length ≤ k * 3)
    (hemb : ∀ v ∈ vecs, v.embedding ≠ []) :
    searchVectorsFallback simF vecs threshold k = searchVectorsRPC simF vecs threshold k := by
  unfold searchVectorsFallback searchVectorsRPC getThreadVectors
  simp only [List.take_of_length_le hlen,
    scored_filterMap_eq_map_filter simF threshold vecs hemb]

/-- Witness for `search_fallback_eq_rpc_of_all_fetched`. -/
theorem search_fallback_eq_rpc_witness :
    searchVectorsFallback (fun e => e.headD 0) [⟨1, "a", [1]⟩, ⟨2, "b", [2]⟩] 0 2 =
      searchVectorsRPC (fun e => e.headD 0) [⟨1, "a", [1]⟩, ⟨2, "b", [2]⟩] 0 2 :=
  search_fallback_eq_rpc_of_all_fetched (fun e => e.headD 0)
    [⟨1, "a", [1]⟩, ⟨2, "b", [2]⟩] 0 2 (by decide) (by decide)

/-- Helper: the direct web-search branch preserves "a performed search
has logged a call". -/
theorem searchStepDirectWeb_calls_of_performed (webRun : String → WebOutcome)
    (needs : SearchNeeds) (query : String) (st : SearchState)
    (h : st.performed = true → st.calls ≠ []) :
    (searchStepDirectWeb webRun needs query st).performed = true →
      (searchStepDirectWeb webRun needs query st).calls ≠ [] := by
  unfold searchStepDirectWeb
  split
  · intro _
    simp
  · exact h

/-- Helper: the tools-list web-search branch preserves "a performed
search has logged a call". -/
theorem searchStepToolWeb_calls_of_performed (webRun : String → WebOutcome)
    (needs : SearchNeeds) (query : String) (st : SearchState)
    (h : st.performed = true → st.calls ≠ []) :
    (searchStepToolWeb webRun needs query st).performed = true →
      (searchStepToolWeb webRun needs query st).calls ≠ [] := by
  unfold searchStepToolWeb
  split
  · intro _
    simp
  · exact h

/-- Helper: the video branch preserves "a performed search has logged a
call". -/
theorem searchStepVideo_calls_of_performed (videoRun : String → VideoOutcome)
    (needs : SearchNeeds) (st : SearchState)
    (h : st.performed = true → st.calls ≠ []) :
    (searchStepVideo videoRun needs st).performed = true →
      (searchStepVideo videoRun needs st).calls ≠ [] := by
  unfold searchStepVideo
  split
  · split
    · rename_i hin
      intro _
      have hv : needs.videos ≠ [] := by simpa using hin
      simp [hv]
    · exact h
  · exact h

/-- Helper: the scrape branch preserves "a performed search has logged a
call". -/
theorem searchStepScrape_calls_of_performed (scrapeRun : String → ScrapeOutcome)
    (needs : SearchNeeds) (st : SearchState)
    (h : st.performed = true → st.calls ≠ []) :
    (searchStepScrape scrapeRun needs st).performed = true →
      (searchStepScrape scrapeRun needs st).calls ≠ [] := by
  unfold searchStepScrape
  split
  · split
    · rename_i hin
      intro _
      have hs : needs.web_scrap ≠ [] := by simpa using hin
      simp [hs]
    · exact h
  · exact h

/-- Helper: with a falsy `web_search` value the direct branch is the
identity. -/
theorem searchStepDirectWeb_skip (webRun : String → WebOutcome)
    (needs : SearchNeeds) (query : String) (st : SearchState)
    (hw : webSearchTruthy needs = false) :
    searchStepDirectWeb webRun needs query st = st := by
  simp [searchStepDirectWeb, hw]

/-- Helper: without `web_search` in the tool list the tools-list branch
is the identity. -/
theorem searchStepToolWeb_skip (webRun : String → WebOutcome)
    (needs : SearchNeeds) (query : String) (st : SearchState)
    (ht : needs.tool.contains "web_search" = false) :
    searchStepToolWeb webRun needs query st = st := by
  unfold searchStepToolWeb
  rw [ht]
  simp

/-- Helper: with an empty url list the video branch is the identity. -/
theorem searchStepVideo_skip (videoRun : String → VideoOutcome)
    (needs : SearchNeeds) (st : SearchState)
    (hv : needs.videos = []) :
    searchStepVideo videoRun needs st = st := by
  simp [searchStepVideo, hv]

/-- Helper: with an empty url list the scrape branch is the identity. -/
theorem searchStepScrape_skip (scrapeRun : String → ScrapeOutcome)
    (needs : SearchNeeds) (st : SearchState)
    (hs : needs.web_scrap = []) :
    searchStepScrape scrapeRun needs st = st := by
  simp [searchStepScrape, hs]

/-- Claim C9 (counterexample): `unified_search` does not perform a web
search for every non-empty query.  When the classifier recommends only
the video tool with a non-empty url list, the only external call made is
the video transcript fetch — no web search happens (the fallback is
skipped because a search was performed). -/
theorem unified_search_video_only_no_web_search :
    ((unified_search (fun _ => some []) (fun u => ⟨true, u, none⟩)
        (fun u => ⟨true, u, []⟩)
        (some ⟨["video"], none, ["https://youtu.be/abc"], []⟩)
        "watch https://youtu.be/abc").2 =
      [SearchCall.video "https://youtu.be/abc"]) ∧
    ((unified_search (fun _ => some []) (fun u => ⟨true, u, none⟩)
        (fun u => ⟨true, u, []⟩)
        (some ⟨["video"], none, ["https://youtu.be/abc"], []⟩)
        "watch https://youtu.be/abc").2.all
      (fun a => match a with | SearchCall.web _ => false | _ => true) = true) := by
  decide

/-- Claim C9 (amended): for every non-empty query and every classifier
result, `unified_search` performs at least one external search call
(web, video or scrape); and when the classifier recommends no usable
search — the `web_search` value is falsy, `web_search` is not in the
tool list, and both url lists are empty — it falls back to exactly one
web search with the original query and returns the header followed by
that search's formatted results. -/
theorem unified_search_fallback_web
    (webRun : String → WebOutcome) (videoRun : String → VideoOutcome)
    (scrapeRun : String → ScrapeOutcome) (needs : SearchNeeds) (query : String)
    (hq : query ≠ "") :
    (unified_search webRun videoRun scrapeRun (some needs) query).2 ≠ [] ∧
    (webSearchTruthy needs = false → needs.tool.contains "web_search" = false →
      needs.videos = [] → needs.web_scrap = [] →
      (unified_search webRun videoRun scrapeRun (some needs) query).2 =
          [SearchCall.web query] ∧
        (unified_search webRun videoRun scrapeRun (some needs) query).1 =
          "Search results for: " ++ query ++ "\n\n" ++
            formatWebSearchResults (webRun query)) := by
  constructor
  · have h0 : (searchInit query).performed = true → (searchInit query).calls ≠ [] := by
      intro h
      simp [searchInit] at h
    have h1 := searchStepDirectWeb_calls_of_performed webRun needs query _ h0
    have h2 := searchStepToolWeb_calls_of_performed webRun needs query _ h1
    have h3 := searchStepVideo_calls_of_performed videoRun needs _ h2
    have h4 := searchStepScrape_calls_of_performed scrapeRun needs _ h3
    simp only [unified_search]
    split
    · simp
    · rename_i hcond
      refine h4 ?_
      by_contra hp
      have hp' : (searchStepScrape scrapeRun needs
          (searchStepVideo videoRun needs
            (searchStepToolWeb webRun needs query
              (searchStepDirectWeb webRun needs query (searchInit query))))).performed = false :=
        Bool.eq_false_iff.mpr hp
      exact hcond (by simp [hp', hq])
  · intro hw ht hv hs
    have e1 := searchStepDirectWeb_skip webRun needs query
      (searchInit query) hw
    have e2 := searchStepToolWeb_skip webRun needs query
      (searchInit query) ht
    have e3 := searchStepVideo_skip videoRun needs (searchInit query) hv
    have e4 := searchStepScrape_skip scrapeRun needs (searchInit query) hs
    simp only [unified_search, e1, e2, e3, e4]
    simp [searchInit, hq]

/-- Witness for `unified_search_fallback_web`. -/
theorem unified_search_fallback_web_witness :
    (unified_search (fun _ => some []) (fun u => ⟨true, u, none⟩)
        (fun u => ⟨true, u, []⟩) (some ⟨[], none, [], []⟩) "hi").2 ≠ [] ∧
    (webSearchTruthy ⟨[], none, [], []⟩ = false →
      List.contains (SearchNeeds.tool ⟨[], none, [], []⟩) "web_search" = false →
      SearchNeeds.videos ⟨[], none, [], []⟩ = [] →
      SearchNeeds.web_scrap ⟨[], none, [], []⟩ = [] →
      (unified_search (fun _ => some []) (fun u => ⟨true, u, none⟩)
          (fun u => ⟨true, u, []⟩) (some ⟨[], none, [], []⟩) "hi").2 =
          [SearchCall.web "hi"] ∧
        (unified_search (fun _ => some []) (fun u => ⟨true, u, none⟩)
            (fun u => ⟨true, u, []⟩) (some ⟨[], none, [], []⟩) "hi").1 =
          "Search results for: " ++ "hi" ++ "\n\n" ++
            formatWebSearchResults ((fun _ => some ([] : List WebItem)) "hi")) :=
  unified_search_fallback_web (fun _ => some []) (fun u => ⟨true, u, none⟩)
    (fun u => ⟨true, u, []⟩) ⟨[], none, [], []⟩ "hi" (by decide)
theorem summarize_partial_after_three_passes_witness :
    (summarize fallbackTokenCount (fun s => some s) "abcdefgh" 1).status = 200 ∧
    (summarize fallbackTokenCount (fun s => some s) "abcdefgh" 1).content = "abcdefgh" ∧
    (summarize fallbackTokenCount (fun s => some s) "abcdefgh" 1).reduced_size =
      fallbackTokenCount "abcdefgh" ∧
    (summarize fallbackTokenCount (fun s => some s) "abcdefgh" 1).original_size =
      fallbackTokenCount "abcdefgh" :=
  summarize_partial_after_three_passes fallbackTokenCount (fun s => some s)
    "abcdefgh" 1 "abcdefgh" "abcdefgh" "abcdefgh"
    (by decide) (by decide) (by decide) rfl (by decide) rfl (by decide) rfl (by decide)

/-- Helper: patching an address preserves the content hash. -/
theorem patchAddress_content_hash (fid : ℕ) (addr : String) (g : FileRec) :
    (patchAddress fid addr g).content_hash = g.content_hash := by
  unfold patchAddress
  split <;> rfl

/-- Helper: patching an address preserves the file id. -/
theorem patchAddress_file_id (fid : ℕ) (addr : String) (g : FileRec) :
    (patchAddress fid addr g).file_id = g.file_id := by
  unfold patchAddress
  split <;> rfl

/-- Helper: a hash lookup commutes with an address patch of the
database (the patch changes no hash). -/
theorem find?_map_patchAddress (db : FileDB) (fid : ℕ) (addr : String) (h : Digest) :
    (db.map (patchAddress fid addr)).find? (fun f => f.content_hash == h) =
      (db.find? (fun f => f.content_hash == h)).map (patchAddress fid addr) := by
  induction db with
  | nil => rfl
  | cons a t ih =>
    simp only [List.map_cons, List.find?, patchAddress_content_hash]
    cases hpa : (a.content_hash == h) with
    | true => rfl
    | false => exact ih

/-- Helper: an address patch preserves hash uniqueness. -/
theorem hashUnique_map_patchAddress (db : FileDB) (fid : ℕ) (addr : String)
    (h : hashUnique db) : hashUnique (db.map (patchAddress fid addr)) := by
  unfold hashUnique at h ⊢
  refine List.Pairwise.map _ ?_ h
  intro a b hab
  rw [patchAddress_content_hash, patchAddress_content_hash]
  exact hab

/-- Helper: a successful upload leaves a row with the bytes' hash whose
`file_id` is the reported id, keeps the size check satisfied, and
preserves hash uniqueness. -/
theorem uploadOne_success (db : FileDB) (bytes fn ext : String) (freshId : ℕ)
    (sf : String) (i : ℕ) (db1 : FileDB)
    (h : uploadOne db bytes fn ext freshId sf = (some i, db1)) :
    bytes.length ≤ MAX_FILE_SIZE ∧
      (∃ f1, findExistingFileByHash db1 (sha256Hex bytes) = some f1 ∧ f1.file_id = i) ∧
      (hashUnique db → hashUnique db1) := by
  unfold uploadOne at h
  split at h
  · cases h
  · split at h
    · cases h
    · rename_i hsz hext
      refine ⟨Nat.le_of_not_lt hsz, ?_⟩
      split at h
      · rename_i f hfind
        have hupd : ∀ a : String, updateFileByContentHash db (sha256Hex bytes) a =
            (some ⟨f.file_id, f.filename, f.content_hash, a, f.content, f.size⟩,
             db.map (patchAddress f.file_id a)) := by
          intro a
          unfold updateFileByContentHash
          unfold findExistingFileByHash at hfind
          rw [hfind]
        split at h
        · rw [hupd f.address] at h
          simp only at h
          cases h
          constructor
          · refine ⟨patchAddress f.file_id f.address f, ?_, patchAddress_file_id _ _ _⟩
            unfold findExistingFileByHash at hfind ⊢
            rw [find?_map_patchAddress, hfind]
            rfl
          · exact fun hu => hashUnique_map_patchAddress db _ _ hu
        · rw [hupd sf] at h
          simp only at h
          cases h
          constructor
          · refine ⟨patchAddress f.file_id sf f, ?_, patchAddress_file_id _ _ _⟩
            unfold findExistingFileByHash at hfind ⊢
            rw [find?_map_patchAddress, hfind]
            rfl
          · exact fun hu => hashUnique_map_patchAddress db _ _ hu
      · rename_i hfind
        cases h
        constructor
        · refine ⟨⟨freshId, fn, sha256Hex bytes, sf,
            (if isTextFile ext then bytes else ""), bytes.length⟩, ?_, rfl⟩
          unfold findExistingFileByHash at hfind ⊢
          rw [List.find?_append, hfind]
          simp
        · intro hu
          unfold hashUnique at hu ⊢
          rw [List.pairwise_append]
          refine ⟨hu, List.pairwise_singleton _ _, ?_⟩
          intro a ha b hb
          simp only [List.mem_singleton] at hb
          subst hb
          have := List.find?_eq_none.mp hfind a ha
          simp only [beq_iff_eq] at this
          simpa using this

/-- Helper: an upload whose bytes hash to an existing row reports that
row's `file_id`, whatever the filenames and whatever the row's
address. -/
theorem uploadOne_found (db : FileDB) (bytes fn ext : String) (freshId : ℕ)
    (sf : String) (f : FileRec)
    (hsz : bytes.length ≤ MAX_FILE_SIZE)
    (hext : SUPPORTED_EXTENSIONS.contains ext = true)
    (hfind : findExistingFileByHash db (sha256Hex bytes) = some f) :
    (uploadOne db bytes fn ext freshId sf).1 = some f.file_id := by
  have hupd : ∀ a : String, updateFileByContentHash db (sha256Hex bytes) a =
      (some ⟨f.file_id, f.filename, f.content_hash, a, f.content, f.size⟩,
       db.map (patchAddress f.file_id a)) := by
    intro a
    unfold updateFileByContentHash
    unfold findExistingFileByHash at hfind
    rw [hfind]
  unfold uploadOne
  rw [if_neg (Nat.not_lt.mpr hsz), if_neg (not_not_intro hext), hfind]
  simp only [hupd]
  split <;> rfl

/-- Claim C2 (counterexample): "regardless of filename" fails.  Uploading
bytes `"hello"` as `a.txt` succeeds with a fresh `file_id`; uploading the
identical bytes as `a.qqq` is rejected (unsupported extension `.qqq`)
and returns no `file_id` at all, rather than the first upload's id. -/
theorem upload_unsupported_extension_not_deduped :
    (uploadOne [] "hello" "a.txt" ".txt" 1 "file-u1.txt").1 = some 1 ∧
      (uploadOne (uploadOne [] "hello" "a.txt" ".txt" 1 "file-u1.txt").2
        "hello" "a.qqq" ".qqq" 2 "file-u2.qqq").1 = none := by
  decide

/-- Claim C2 (amended): for any two uploads through the files endpoint
with identical raw bytes, if the first upload succeeds (returning id
`i`) and the second upload's filename has a supported extension, then
the second upload returns the same id `i`, regardless of the filenames
themselves; and a successful upload preserves the invariant that a
content hash identifies at most one row. -/
theorem upload_dedup_identical_bytes (db : FileDB) (bytes fn1 ext1 fn2 ext2 : String)
    (id1 id2 : ℕ) (sf1 sf2 : String) (i : ℕ) (db1 : FileDB)
    (h1 : uploadOne db bytes fn1 ext1 id1 sf1 = (some i, db1))
    (hext2 : SUPPORTED_EXTENSIONS.contains ext2 = true) :
    (uploadOne db1 bytes fn2 ext2 id2 sf2).1 = some i ∧
      (hashUnique db → hashUnique db1) := by
  obtain ⟨hsz, ⟨f1, hfind, hid⟩, hpres⟩ :=
    uploadOne_success db bytes fn1 ext1 id1 sf1 i db1 h1
  refine ⟨?_, hpres⟩
  rw [uploadOne_found db1 bytes fn2 ext2 id2 sf2 f1 hsz hext2 hfind, hid]

/-- Witness for `upload_dedup_identical_bytes`: re-uploading the same
bytes under a different supported filename returns the first id. -/
theorem upload_dedup_identical_bytes_witness :
    (uploadOne (uploadOne [] "hello" "a.txt" ".txt" 1 "file-u1.txt").2
        "hello" "b.py" ".py" 2 "file-u2.py").1 = some 1 ∧
      (hashUnique [] → hashUnique (uploadOne [] "hello" "a.txt" ".txt" 1 "file-u1.txt").2) :=
  upload_dedup_identical_bytes [] "hello" "a.txt" ".txt" "b.py" ".py" 1 2
    "file-u1.txt" "file-u2.py" 1 (uploadOne [] "hello" "a.txt" ".txt" 1 "file-u1.txt").2
    (by decide) (by decide)

/-- Helper: appending to a string is injective in the appended part. -/
theorem string_append_left_cancel (a b c : String) (h : a ++ b = a ++ c) : b = c := by
  have hd : a.data ++ b.data = a.data ++ c.data := by
    have hdata := congrArg String.data h
    simpa [String.data_append] using hdata
  cases b with
  | mk bl =>
    cases c with
    | mk cl =>
      exact congrArg String.mk (List.append_cancel_left hd)

/-- Claim C10: `create_file` with empty content and no (or empty)
pre-computed `content_hash` derives the hash from a string ending in the
freshly drawn random bytes, so two calls with identical arguments but
distinct random draws store different `content_hash` values — and the
second hash matches no row created from the first draw, so such files
are never deduplicated by hash. -/
theorem create_file_empty_content_random_hash (address filename : String)
    (size : ℕ) (r1 r2 : String) (db : FileDB)
    (hne : r1 ≠ r2)
    (hdb : ∀ f ∈ db, f.content_hash = createFileContentHash "" address filename size none r1) :
    createFileContentHash "" address filename size none r1 ≠
        createFileContentHash "" address filename size none r2 ∧
      findExistingFileByHash db (createFileContentHash "" address filename size none r2) = none := by
  have hmain : createFileContentHash "" address filename size none r1 ≠
      createFileContentHash "" address filename size none r2 := by
    intro hcontra
    unfold createFileContentHash at hcontra
    simp only [ne_eq, not_true_eq_false, if_false, ite_false] at hcontra
    unfold sha256Hex at hcontra
    have : r1 = r2 := string_append_left_cancel _ _ _ (by
      simpa using congrArg Digest.preimage hcontra)
    exact hne this
  refine ⟨hmain, ?_⟩
  unfold findExistingFileByHash
  rw [List.find?_eq_none]
  intro f hf
  simp only [beq_iff_eq]
  rw [hdb f hf]
  exact hmain

/-- Witness for `create_file_empty_content_random_hash`. -/
theorem create_file_empty_content_random_hash_witness :
    createFileContentHash "" "file-x.txt" "a.txt" 0 none "00" ≠
        createFileContentHash "" "file-x.txt" "a.txt" 0 none "ff" ∧
      findExistingFileByHash
        [⟨1, "a.txt", createFileContentHash "" "file-x.txt" "a.txt" 0 none "00",
          "file-x.txt", "", 0⟩]
        (createFileContentHash "" "file-x.txt" "a.txt" 0 none "ff") = none :=
  create_file_empty_content_random_hash "file-x.txt" "a.txt" 0 "00" "ff"
    [⟨1, "a.txt", createFileContentHash "" "file-x.txt" "a.txt" 0 none "00",
      "file-x.txt", "", 0⟩]
    (by decide) (by decide)

end Polaris
